import Mathlib

/-!
Verification of the value-mapping, interaction and rendering-geometry logic of
the `egui_knob` rotary-knob widget (`src/widget.rs`, `src/config.rs`,
`src/render.rs`).

Modelling conventions:

* `f32` scalars flowing through the per-frame update are embedded as `F`:
  either NaN, `+∞`, `-∞`, or an exact rational.  The widget performs no
  rounding-sensitive iteration, so exact rational arithmetic together with the
  IEEE-754 special-value rules (NaN propagation, `∞ - ∞ = NaN`, `∞ · 0 = NaN`,
  division by zero producing `±∞` or NaN, `clamp` keeping NaN, `round` and
  truncating casts on specials) is a faithful shallow embedding of the
  computations the source performs.  Spec statements qualified "within
  floating-point tolerance" are settled by exact equality in this model.
* Host-supplied configuration scalars (`drag_sensitivity`, `step`,
  `reset_value`) and per-frame input scalars (drag delta, scroll delta) are
  finite, hence modelled as `ℚ`.  The two arguments of `with_sweep_range` are
  modelled as full `F` because the source explicitly tests them for NaN.
* Angles: every angle the source manipulates has the form `q · π` for a
  rational `q` (the defaults are `-π` and `π/2`, and `with_sweep_range`
  produces `fract(start) · 2π + π/2 + k·2π` shapes).  An angle is therefore
  represented by its coefficient of `π`, an `F`; since `π ≠ 0`, equality of
  coefficients is equality of angles.  `TAU` is the coefficient `2`, `PI/2`
  the coefficient `1/2`.
* The logarithmic branch of `Knob::ui` uses `log10` and `10^x`, which have no
  computable exact counterpart; it is modelled separately over `ℝ`
  (`uiLogR`), faithful on NaN-free, finite executions with nonzero divisors —
  the hypotheses of the theorems about it enforce exactly that region.
-/

/-- Shallow embedding of an `f32` scalar: NaN, the two infinities, or an exact
finite value. Signed zero is not distinguished (the source never branches on
it). -/
inductive F where
  | nan : F
  | inf : F
  | ninf : F
  | fin : ℚ → F
deriving DecidableEq, Repr

namespace F

/-- `f32::is_nan`. -/
def isNan : F → Bool
  | nan => true
  | _ => false

/-- IEEE-754 negation. -/
def neg : F → F
  | nan => nan
  | inf => ninf
  | ninf => inf
  | fin a => fin (-a)

/-- IEEE-754 addition (exact on finite values). -/
def add : F → F → F
  | nan, _ => nan
  | _, nan => nan
  | inf, ninf => nan
  | ninf, inf => nan
  | inf, _ => inf
  | _, inf => inf
  | ninf, _ => ninf
  | _, ninf => ninf
  | fin a, fin b => fin (a + b)

/-- IEEE-754 subtraction, as `a + (-b)`. -/
def sub (a b : F) : F := add a (neg b)

/-- IEEE-754 multiplication (exact on finite values); `∞ · 0 = NaN`. -/
def mul : F → F → F
  | nan, _ => nan
  | _, nan => nan
  | inf, inf => inf
  | inf, ninf => ninf
  | ninf, inf => ninf
  | ninf, ninf => inf
  | inf, fin b => if b = 0 then nan else if 0 < b then inf else ninf
  | fin a, inf => if a = 0 then nan else if 0 < a then inf else ninf
  | ninf, fin b => if b = 0 then nan else if 0 < b then ninf else inf
  | fin a, ninf => if a = 0 then nan else if 0 < a then ninf else inf
  | fin a, fin b => fin (a * b)

/-- IEEE-754 division (exact on finite values); `0/0 = NaN`, `x/0 = ±∞` for
`x ≠ 0` (the zero denominators arising in the source are positive zeros),
`±∞/±∞ = NaN`, finite`/∞ = 0`. -/
def div : F → F → F
  | nan, _ => nan
  | _, nan => nan
  | inf, inf => nan
  | inf, ninf => nan
  | ninf, inf => nan
  | ninf, ninf => nan
  | fin _, inf => fin 0
  | fin _, ninf => fin 0
  | inf, fin b => if 0 ≤ b then inf else ninf
  | ninf, fin b => if 0 ≤ b then ninf else inf
  | fin a, fin b =>
    if b = 0 then (if a = 0 then nan else if 0 < a then inf else ninf)
    else fin (a / b)

/-- `f32::clamp(lo, hi)` with finite bounds `lo ≤ hi`: NaN passes through,
`+∞ ↦ hi`, `-∞ ↦ lo`, finite values are clamped. -/
def clamp (x : F) (lo hi : ℚ) : F :=
  match x with
  | nan => nan
  | inf => fin hi
  | ninf => fin lo
  | fin q => fin (max lo (min q hi))

/-- `f32::round`: rounds half away from zero; NaN and infinities pass
through. -/
def roundF : F → F
  | nan => nan
  | inf => inf
  | ninf => ninf
  | fin q => fin (((if 0 ≤ q then ⌊q + 1/2⌋ else ⌈q - 1/2⌉ : ℤ) : ℚ))

/-- `f32::max(self, other)` with a finite `other`: returns the other operand
when `self` is NaN. -/
def maxQ : F → ℚ → F
  | nan, b => fin b
  | inf, _ => inf
  | ninf, b => fin b
  | fin a, b => fin (max a b)

/-- `f32::rem_euclid(1.0)`: for finite values the fractional part
`x - ⌊x⌋`; NaN and infinities yield NaN. -/
def remEuclidOne : F → F
  | nan => nan
  | inf => nan
  | ninf => nan
  | fin q => fin (Int.fract q)

/-- `as usize` cast of an `f32` (truncation toward zero; NaN and negative
values give 0). The infinite cases saturate in Rust; they are unreachable
here because every cast in the source is applied to a value clamped into
`[0,1]` first, and are mapped to 0. -/
def toUsize : F → ℕ
  | nan => 0
  | inf => 0
  | ninf => 0
  | fin q => if q ≤ 0 then 0 else (⌊q⌋).toNat

/-- `emath::lerp(lo..=hi, t) = (1 - t) * lo + t * hi`. -/
def lerp (lo hi t : F) : F := add (mul (sub (fin 1) t) lo) (mul t hi)

/-- `emath::remap(x, a..=b, c..=d) = lerp(c..=d, (x - a) / (b - a))`. -/
def remap (x a b c d : F) : F := lerp c d (div (sub x a) (sub b a))

@[simp] theorem isNan_nan : isNan nan = true := rfl
@[simp] theorem isNan_inf : isNan inf = false := rfl
@[simp] theorem isNan_ninf : isNan ninf = false := rfl
@[simp] theorem isNan_fin (a : ℚ) : isNan (fin a) = false := rfl

@[simp] theorem neg_fin (a : ℚ) : neg (fin a) = fin (-a) := rfl
@[simp] theorem add_fin_fin (a b : ℚ) : add (fin a) (fin b) = fin (a + b) := rfl
@[simp] theorem add_nan_left (x : F) : add nan x = nan := by cases x <;> rfl
@[simp] theorem add_nan_right (x : F) : add x nan = nan := by cases x <;> rfl
@[simp] theorem sub_fin_fin (a b : ℚ) : sub (fin a) (fin b) = fin (a - b) := by
  simp [sub, sub_eq_add_neg]
@[simp] theorem sub_nan_left (x : F) : sub nan x = nan := by cases x <;> rfl
@[simp] theorem sub_nan_right (x : F) : sub x nan = nan := by cases x <;> rfl
@[simp] theorem mul_fin_fin (a b : ℚ) : mul (fin a) (fin b) = fin (a * b) := rfl
@[simp] theorem mul_nan_left (x : F) : mul nan x = nan := by cases x <;> rfl
@[simp] theorem mul_nan_right (x : F) : mul x nan = nan := by cases x <;> rfl
@[simp] theorem clamp_nan (lo hi : ℚ) : clamp nan lo hi = nan := rfl
@[simp] theorem clamp_fin (q lo hi : ℚ) :
    clamp (fin q) lo hi = fin (max lo (min q hi)) := rfl
@[simp] theorem roundF_nan : roundF nan = nan := rfl
@[simp] theorem div_nan_left (x : F) : div nan x = nan := by cases x <;> rfl
@[simp] theorem div_nan_right (x : F) : div x nan = nan := by cases x <;> rfl

theorem div_fin_fin (a b : ℚ) (hb : b ≠ 0) :
    div (fin a) (fin b) = fin (a / b) := by simp [div, hb]

theorem mul_comm_F (x y : F) : mul x y = mul y x := by
  cases x <;> cases y <;> simp [mul, mul_comm]

end F

/-- The behaviour-relevant fields of `KnobConfig` (`src/config.rs`).  Purely
visual fields (size, font size, stroke width, colors, label text/position/
offset/formatter, indicator style) do not influence any claim and are
omitted.  Angles are stored as coefficients of `π` (see the header).  The
numeric scalar type is a parameter so the same structure serves the exact
model (`ℚ`) and the real-valued logarithmic model (`ℝ`). -/
structure KnobConfig (α : Type) where
  step : Option α
  drag_sensitivity : α
  show_background_arc : Bool
  show_filled_segments : Bool
  min_angle : F
  max_angle : F
  reset_value : Option α
  allow_scroll : Bool
  logarithmic_scaling : Bool
deriving DecidableEq, Repr

/-- `KnobConfig::new` (`src/config.rs`): defaults `step = None`,
`drag_sensitivity = 0.005`, arcs shown, `min_angle = -π`,
`max_angle = π/2`, no reset value, scroll and logarithmic scaling off. -/
def KnobConfig.new : KnobConfig ℚ :=
  { step := none
    drag_sensitivity := 1/200
    show_background_arc := true
    show_filled_segments := true
    min_angle := F.fin (-1)
    max_angle := F.fin (1/2)
    reset_value := none
    allow_scroll := false
    logarithmic_scaling := false }

/-- One frame's input state as queried from egui inside `Knob::ui`:
`response.dragged()`, `response.drag_delta().y`, `response.hovered()`, the
first `MouseWheel` event's `delta.y` if any occurred this frame, and
`response.double_clicked()`. -/
structure FrameInput (α : Type) where
  dragged : Bool
  drag_delta_y : α
  hovered : Bool
  scroll_y : Option α
  double_clicked : Bool
deriving DecidableEq, Repr

/-- The observable outcome of one `Knob::ui` frame: the value written back
through the host's `&mut f32`, the final normalized coordinate `raw` (the one
handed to the second `KnobRenderer`), and whether `mark_changed` was called
on the response. -/
structure UiResult (α : Type) where
  value : α
  raw : α
  changed : Bool
deriving DecidableEq, Repr

/-- `widget.rs` line 183-187, linear branch:
`remap(*self.value, self.min..=self.max, 0.0..=1.0)`. -/
def toRaw01 (min max : ℚ) (v : F) : F :=
  F.remap v (F.fin min) (F.fin max) (F.fin 0) (F.fin 1)

/-- `widget.rs` line 225-229, linear branch:
`remap(raw, 0.0..=1.0, self.min..=self.max)`. -/
def fromRaw01 (min max : ℚ) (r : F) : F :=
  F.remap r (F.fin 0) (F.fin 1) (F.fin min) (F.fin max)

/-- `widget.rs` lines 195-206 (drag branch body): the per-unit step is
`config.step.unwrap_or(config.drag_sensitivity)`;
`raw = (raw - delta * step).clamp(0.0, 1.0)`; then, when an explicit step is
configured, `steps = (raw / step).round(); raw = (steps * step).clamp(0.0,
1.0)`. -/
def dragRaw (cfg : KnobConfig ℚ) (delta : ℚ) (raw : F) : F :=
  let step := cfg.step.getD cfg.drag_sensitivity
  let r := F.clamp (F.sub raw (F.mul (F.fin delta) (F.fin step))) 0 1
  match cfg.step with
  | some s => F.clamp (F.mul (F.roundF (F.div r (F.fin s))) (F.fin s)) 0 1
  | none => r

/-- `widget.rs` lines 212-223 (scroll branch body):
`raw = (raw + scroll.y * config.step.unwrap_or(config.drag_sensitivity))
.clamp(0.0, 1.0)`. -/
def scrollRaw (cfg : KnobConfig ℚ) (sy : ℚ) (raw : F) : F :=
  F.clamp (F.add raw (F.mul (F.fin sy) (F.fin (cfg.step.getD cfg.drag_sensitivity)))) 0 1

/-- `widget.rs` lines 195-223: the gesture dispatch.  A drag takes priority
and is the only path calling `response.mark_changed()`; otherwise, when
hovered with scrolling enabled and a wheel event occurred this frame, the
scroll update runs (without marking changed); otherwise `raw` is untouched.
(The `if self.value.is_nan() { *self.value = 0.0 }` inside the drag branch is
dead: the value was already NaN-coerced at the top of `ui` and is overwritten
unconditionally by the write-back at line 225.) -/
def gestureRaw (cfg : KnobConfig ℚ) (inp : FrameInput ℚ) (raw0 : F) : F × Bool :=
  if inp.dragged then
    (dragRaw cfg inp.drag_delta_y raw0, true)
  else if inp.hovered && cfg.allow_scroll then
    match inp.scroll_y with
    | some sy => (scrollRaw cfg sy raw0, false)
    | none => (raw0, false)
  else
    (raw0, false)

/-- `Knob::ui` (`src/widget.rs` lines 178-252), logarithmic scaling off
(models the `logarithmic_scaling = false` resolution of the two `if
self.config.logarithmic_scaling` branches; the `true` resolution is
`uiLogR` below).  Steps, in source order: NaN starting value is coerced to
`min`; `raw` is computed from the value; the gesture dispatch updates `raw`
and possibly marks the response changed; the value is written back from
`raw`; finally a double-click with a configured reset value overwrites the
value (but not `raw`). -/
def uiLin (min max : ℚ) (cfg : KnobConfig ℚ) (inp : FrameInput ℚ) (v0 : F) :
    UiResult F :=
  let v1 := if v0.isNan then F.fin min else v0
  let rc := gestureRaw cfg inp (toRaw01 min max v1)
  let v2 := fromRaw01 min max rc.1
  let v3 :=
    if inp.double_clicked then
      match cfg.reset_value with
      | some r => F.fin r
      | none => v2
    else v2
  ⟨v3, rc.1, rc.2⟩

/-- `Knob::with_sweep_range` (`src/widget.rs` lines 51-60).  Returns the
configuration unchanged when either argument is NaN; otherwise
`min_angle = start.rem_euclid(1.0) * TAU + PI/2` and
`max_angle = min_angle + range.max(0.0) * TAU`, here in coefficient-of-`π`
form (`TAU ↦ 2`, `PI/2 ↦ 1/2`). -/
def withSweepRange (cfg : KnobConfig ℚ) (start range : F) : KnobConfig ℚ :=
  if start.isNan || range.isNan then cfg
  else
    let minA := F.add (F.mul (F.remEuclidOne start) (F.fin 2)) (F.fin (1/2))
    { cfg with
      min_angle := minA
      max_angle := F.add minA (F.mul (F.maxQ range 0) (F.fin 2)) }

/-- `KnobRenderer::compute_angle` (`src/render.rs` lines 25-32): with a
degenerate range or NaN `raw`, the fixed `min_angle`; otherwise
`min_angle + raw * (max_angle - min_angle)`.  Angles in coefficient-of-`π`
form. -/
def computeAngle (min max : ℚ) (cfg : KnobConfig ℚ) (raw : F) : F :=
  if min = max || raw.isNan then cfg.min_angle
  else F.add cfg.min_angle (F.mul raw (F.sub cfg.max_angle cfg.min_angle))

/-- `src/render.rs` line 102-104: the number of filled arc segments,
`(128 as f32 * raw.clamp(0.0, 1.0)) as usize`. -/
def filledSegments (raw : F) : ℕ :=
  F.toUsize (F.mul (F.fin 128) (F.clamp raw 0 1))

/-- `src/render.rs` lines 89-94 and 108-113: the angle of sample point `i`
of the (background or filled) arc polyline,
`arc_start + (arc_end - arc_start) * (i as f32 / 128 as f32)`, in
coefficient-of-`π` form. -/
def arcPointAngle (cfg : KnobConfig ℚ) (i : ℕ) : F :=
  F.add cfg.min_angle
    (F.mul (F.sub cfg.max_angle cfg.min_angle) (F.fin ((i : ℚ) / 128)))

/-- The angle at which the filled-arc polyline ends, per
`KnobRenderer::render_background_arc` (`src/render.rs` lines 101-123):
`none` when the background arc or the filled segments are disabled, or when
`filled_segments = 0` (no polyline is emitted); otherwise the angle of the
last of its `filled_segments + 1` sample points. -/
def fillEndAngle (cfg : KnobConfig ℚ) (raw : F) : Option F :=
  if cfg.show_background_arc && cfg.show_filled_segments then
    let fs := filledSegments raw
    if 0 < fs then some (arcPointAngle cfg fs) else none
  else none

/-- Step formula of the drag branch as the spec's §4.3 words it
(`stepSize = explicitStep ?? (range * dragSensitivity)`), for comparison
with the source's `config.step.unwrap_or(config.drag_sensitivity)`. -/
def dragStepSpec (min max : ℚ) (cfg : KnobConfig ℚ) : ℚ :=
  cfg.step.getD ((max - min) * cfg.drag_sensitivity)

noncomputable section LogModel

/-- `emath::lerp` over `ℝ` (logarithmic-branch model). -/
def lerpR (lo hi t : ℝ) : ℝ := (1 - t) * lo + t * hi

/-- `emath::remap` over `ℝ` (logarithmic-branch model). -/
def remapR (x a b c d : ℝ) : ℝ := lerpR c d ((x - a) / (b - a))

/-- `f32::clamp` over `ℝ`. -/
def clampR (x lo hi : ℝ) : ℝ := max lo (min x hi)

/-- `f32::round` (half away from zero) over `ℝ`. -/
def roundAwayR (x : ℝ) : ℤ := if 0 ≤ x then ⌊x + 1/2⌋ else ⌈x - 1/2⌉

/-- `widget.rs` line 183-185, logarithmic branch:
`remap(*self.value, self.min..=self.max, 1.0..=10.0).log(10.0)`. -/
def toRawLog (min max v : ℝ) : ℝ := Real.logb 10 (remapR v min max 1 10)

/-- `widget.rs` line 225-227, logarithmic branch:
`remap(10f32.powf(raw), 1.0..=10.0, self.min..=self.max)`. -/
def fromRawLog (min max r : ℝ) : ℝ := remapR ((10 : ℝ) ^ r) 1 10 min max

/-- Drag branch over `ℝ` (same lines as `dragRaw`). -/
def dragRawR (cfg : KnobConfig ℝ) (delta : ℝ) (raw : ℝ) : ℝ :=
  let step := cfg.step.getD cfg.drag_sensitivity
  let r := clampR (raw - delta * step) 0 1
  match cfg.step with
  | some s => clampR ((roundAwayR (r / s) : ℝ) * s) 0 1
  | none => r

/-- Scroll branch over `ℝ` (same lines as `scrollRaw`). -/
def scrollRawR (cfg : KnobConfig ℝ) (sy : ℝ) (raw : ℝ) : ℝ :=
  clampR (raw + sy * cfg.step.getD cfg.drag_sensitivity) 0 1

/-- Gesture dispatch over `ℝ` (same lines as `gestureRaw`). -/
def gestureRawR (cfg : KnobConfig ℝ) (inp : FrameInput ℝ) (raw0 : ℝ) : ℝ × Bool :=
  if inp.dragged then
    (dragRawR cfg inp.drag_delta_y raw0, true)
  else if inp.hovered && cfg.allow_scroll then
    match inp.scroll_y with
    | some sy => (scrollRawR cfg sy raw0, false)
    | none => (raw0, false)
  else
    (raw0, false)

/-- `Knob::ui` (`src/widget.rs` lines 178-252) with logarithmic scaling on,
modelled over `ℝ`.  `ℝ` has no NaN, so this model covers NaN-free executions:
the starting value is assumed already non-NaN (the NaN coercion of line
179-181 is covered by the exact model `uiLin`), and theorems about this
model carry hypotheses (configured step nonzero, `min < max`) confining it
to the region where `f32` produces no NaN/∞ and the embedding is faithful. -/
def uiLogR (min max : ℝ) (cfg : KnobConfig ℝ) (inp : FrameInput ℝ) (v0 : ℝ) :
    UiResult ℝ :=
  let rc := gestureRawR cfg inp (toRawLog min max v0)
  let v2 := fromRawLog min max rc.1
  let v3 :=
    if inp.double_clicked then
      match cfg.reset_value with
      | some r => r
      | none => v2
    else v2
  ⟨v3, rc.1, rc.2⟩

end LogModel

/-! ### Helper lemmas -/

theorem max0min1_nonneg (q : ℚ) : 0 ≤ max 0 (min q 1) := le_max_left 0 _

theorem max0min1_le_one (q : ℚ) : max 0 (min q 1) ≤ 1 :=
  max_le (by norm_num) (min_le_right q 1)

theorem clamp01_fin_mem (x : F) (h : x.isNan = false) :
    ∃ r, F.clamp x 0 1 = F.fin r ∧ 0 ≤ r ∧ r ≤ 1 := by
  cases x with
  | nan => simp at h
  | inf => exact ⟨1, rfl, by norm_num⟩
  | ninf => exact ⟨0, rfl, by norm_num⟩
  | fin q => exact ⟨max 0 (min q 1), rfl, max0min1_nonneg _, max0min1_le_one _⟩

theorem toRaw01_fin (min max q : ℚ) (h : min ≠ max) :
    toRaw01 min max (F.fin q) = F.fin ((q - min) / (max - min)) := by
  have h2 : max - min ≠ 0 := sub_ne_zero.mpr (Ne.symm h)
  simp [toRaw01, F.remap, F.lerp, F.div_fin_fin _ _ h2]

theorem fromRaw01_fin (min max r : ℚ) :
    fromRaw01 min max (F.fin r) = F.fin ((1 - r) * min + r * max) := by
  have hd : F.div (F.fin r) (F.fin 1) = F.fin r := by
    rw [F.div_fin_fin _ _ one_ne_zero, div_one]
  simp [fromRaw01, F.remap, F.lerp, hd]

theorem dragRaw_mem (cfg : KnobConfig ℚ) (delta q : ℚ)
    (hs : ∀ s, cfg.step = some s → s ≠ 0) :
    ∃ r, dragRaw cfg delta (F.fin q) = F.fin r ∧ 0 ≤ r ∧ r ≤ 1 := by
  rcases hst : cfg.step with _ | s
  · obtain ⟨r, hr, h0, h1⟩ :=
      clamp01_fin_mem (F.fin (q - delta * cfg.drag_sensitivity)) rfl
    exact ⟨r, by rw [← hr]; simp [dragRaw, hst], h0, h1⟩
  · have hs0 : s ≠ 0 := hs s hst
    obtain ⟨r, hr, h0, h1⟩ := clamp01_fin_mem
      (F.mul (F.roundF (F.div (F.clamp (F.fin (q - delta * s)) 0 1) (F.fin s)))
        (F.fin s))
      (by simp [F.roundF, F.div_fin_fin _ _ hs0])
    refine ⟨r, ?_, h0, h1⟩
    rw [← hr]
    simp [dragRaw, hst, F.roundF, F.div_fin_fin _ _ hs0]

theorem scrollRaw_mem (cfg : KnobConfig ℚ) (sy q : ℚ) :
    ∃ r, scrollRaw cfg sy (F.fin q) = F.fin r ∧ 0 ≤ r ∧ r ≤ 1 := by
  obtain ⟨r, hr, h0, h1⟩ := clamp01_fin_mem
    (F.fin (q + sy * cfg.step.getD cfg.drag_sensitivity)) rfl
  exact ⟨r, by rw [← hr]; simp [scrollRaw], h0, h1⟩

theorem gestureRaw_mem (cfg : KnobConfig ℚ) (inp : FrameInput ℚ) (t : ℚ)
    (ht0 : 0 ≤ t) (ht1 : t ≤ 1) (hs : ∀ s, cfg.step = some s → s ≠ 0) :
    ∃ r, (gestureRaw cfg inp (F.fin t)).1 = F.fin r ∧ 0 ≤ r ∧ r ≤ 1 := by
  by_cases hd : inp.dragged = true
  · obtain ⟨r, hr, h0, h1⟩ := dragRaw_mem cfg inp.drag_delta_y t hs
    exact ⟨r, by simp [gestureRaw, hd, hr], h0, h1⟩
  · by_cases hh : (inp.hovered && cfg.allow_scroll) = true
    · rcases hsc : inp.scroll_y with _ | sy
      · exact ⟨t, by simp [gestureRaw, hd, hh, hsc], ht0, ht1⟩
      · obtain ⟨r, hr, h0, h1⟩ := scrollRaw_mem cfg sy t
        exact ⟨r, by simp [gestureRaw, hd, hh, hsc, hr], h0, h1⟩
    · exact ⟨t, by simp [gestureRaw, hd, hh], ht0, ht1⟩

theorem writeback_mem (min max r : ℚ) (hmm : min ≤ max) (h0 : 0 ≤ r) (h1 : r ≤ 1) :
    min ≤ (1 - r) * min + r * max ∧ (1 - r) * min + r * max ≤ max := by
  constructor <;> nlinarith [mul_nonneg h0 (sub_nonneg.mpr hmm),
    mul_nonneg (sub_nonneg.mpr h1) (sub_nonneg.mpr hmm)]

/-! ### Claim theorems -/

/-- C3: with `min = 0`, `max = 100`, value `50`, no explicit step, default
drag sensitivity `0.005` and a one-frame drag of `delta.y = -10`, the
normalized coordinate rises from `1/2` by `10 * 0.005 = 0.05` to `0.55`, the
written-back value is exactly `55`, and the response is marked changed. -/
theorem c3_scenario_a :
    toRaw01 0 100 (F.fin 50) = F.fin (1/2) ∧
    uiLin 0 100 KnobConfig.new ⟨true, -10, false, none, false⟩ (F.fin 50) =
      ⟨F.fin (55 : ℚ), F.fin (1/2 + 10 * (1/200)), true⟩ := by
  norm_num [uiLin, gestureRaw, dragRaw, toRaw01, fromRaw01, F.remap, F.lerp,
    F.div, F.sub, F.add, F.mul, F.neg, F.clamp, F.isNan, KnobConfig.new]

/-- C8 (amended form is the claim itself): whenever a double-click occurs
and a reset value `r` is configured, the value written back by `Knob::ui`
is exactly `r`, whatever any drag or scroll computed in the same frame. -/
theorem c8_reset_wins (min max : ℚ) (cfg : KnobConfig ℚ) (inp : FrameInput ℚ)
    (v0 : F) (r : ℚ) (hdc : inp.double_clicked = true)
    (hr : cfg.reset_value = some r) :
    (uiLin min max cfg inp v0).value = F.fin r := by
  simp [uiLin, hdc, hr]

/-- C8 witness: reset value `0.5`, current value `0.9`, a simultaneous drag
of `delta.y = 3` — the written-back value is `0.5`. -/
theorem c8_witness :
    (uiLin 0 1 { KnobConfig.new with reset_value := some (1/2) }
      ⟨true, 3, true, none, true⟩ (F.fin (9/10))).value = F.fin (1/2) :=
  c8_reset_wins 0 1 _ _ (F.fin (9/10)) (1/2) rfl rfl

/-- C4 counterexample: a wheel event (`delta.y = 1`) over a hovered knob with
scrolling enabled and nobody dragging does move `raw` (from `1/2` to
`101/200`), yet the response is not marked changed — the claim's "changed iff
drag, scroll, or reset" is false on the code (the scroll branch never calls
`mark_changed`). -/
theorem c4_counterexample :
    (uiLin 0 1 { KnobConfig.new with allow_scroll := true }
      ⟨false, 0, true, some 1, false⟩ (F.fin (1/2))).changed = false ∧
    (uiLin 0 1 { KnobConfig.new with allow_scroll := true }
      ⟨false, 0, true, some 1, false⟩ (F.fin (1/2))).raw = F.fin (101/200) ∧
    F.fin (101/200) ≠ F.fin (1/2) := by
  norm_num [uiLin, gestureRaw, scrollRaw, toRaw01, fromRaw01, F.remap, F.lerp,
    F.div, F.sub, F.add, F.mul, F.neg, F.clamp, F.isNan, KnobConfig.new]

/-- C4 amended: the response is marked changed exactly when the knob was
dragged this frame (even with a zero drag delta); scroll motion and
double-click resets do not mark it, and mere hovering does not either. -/
theorem c4_changed_iff_dragged (min max : ℚ) (cfg : KnobConfig ℚ)
    (inp : FrameInput ℚ) (v0 : F) :
    (uiLin min max cfg inp v0).changed = inp.dragged := by
  rcases hd : inp.dragged
  · rcases hh : inp.hovered && cfg.allow_scroll
    · simp [uiLin, gestureRaw, hd, hh]
    · rcases hsc : inp.scroll_y with _ | sy <;>
        simp [uiLin, gestureRaw, hd, hh, hsc]
  · simp [uiLin, gestureRaw, hd]

/-- C2 counterexample: `min = 0`, `max = 100`, value `50`, drag
`delta.y = -10`, no explicit step.  The spec formula
`stepSize = explicitStep ?? (range * dragSensitivity)` predicts a step of
`0.5` per unit and hence `raw = clamp(0.5 + 10·0.5) = 1`, but the code's raw
after the drag is `0.55 ≠ 1`: the range factor is not in the code. -/
theorem c2_counterexample :
    (uiLin 0 100 KnobConfig.new ⟨true, -10, false, none, false⟩
      (F.fin 50)).raw = F.fin (11/20) ∧
    F.clamp (F.sub (F.fin (1/2))
        (F.mul (F.fin (-10)) (F.fin (dragStepSpec 0 100 KnobConfig.new)))) 0 1
      = F.fin 1 ∧
    F.fin (11/20) ≠ F.fin 1 := by
  norm_num [uiLin, gestureRaw, dragRaw, toRaw01, fromRaw01, F.remap, F.lerp,
    F.div, F.sub, F.add, F.mul, F.neg, F.clamp, F.isNan, KnobConfig.new,
    dragStepSpec]

/-- C2 amended: during a drag the per-unit step applied to the normalized
coordinate is the explicit step if one is configured and otherwise the drag
sensitivity alone (the value range is not multiplied in); the new raw is the
old raw minus `delta.y` times that step, clamped to `[0,1]` — followed by
step snapping when an explicit step is configured. -/
theorem c2_drag_raw_update (min max : ℚ) (cfg : KnobConfig ℚ)
    (inp : FrameInput ℚ) (v0 : F) (hd : inp.dragged = true) :
    (cfg.step = none →
      (uiLin min max cfg inp v0).raw =
        F.clamp (F.sub (toRaw01 min max (if v0.isNan then F.fin min else v0))
          (F.mul (F.fin inp.drag_delta_y) (F.fin cfg.drag_sensitivity))) 0 1) ∧
    (∀ s, cfg.step = some s →
      (uiLin min max cfg inp v0).raw =
        F.clamp (F.mul (F.roundF (F.div
          (F.clamp (F.sub (toRaw01 min max (if v0.isNan then F.fin min else v0))
            (F.mul (F.fin inp.drag_delta_y) (F.fin s))) 0 1)
          (F.fin s))) (F.fin s)) 0 1) := by
  constructor
  · intro hst
    simp [uiLin, gestureRaw, hd, dragRaw, hst]
  · intro s hst
    simp [uiLin, gestureRaw, hd, dragRaw, hst]

/-- C2 witness: the amended drag formula evaluated in Scenario A's frame. -/
theorem c2_witness :
    (uiLin 0 100 KnobConfig.new ⟨true, -10, false, none, false⟩
      (F.fin 50)).raw =
      F.clamp (F.sub (toRaw01 0 100
          (if (F.fin 50).isNan then F.fin 0 else F.fin 50))
        (F.mul (F.fin (-10)) (F.fin KnobConfig.new.drag_sensitivity))) 0 1 :=
  (c2_drag_raw_update 0 100 KnobConfig.new ⟨true, -10, false, none, false⟩
    (F.fin 50) rfl).1 rfl

/-- C7: `with_sweep_range` is a no-op when either argument is NaN, wraps its
start fraction modulo 1, clamps a negative sweep fraction to zero, and in
particular `with_sweep_range(1.3, -0.2)` yields exactly the same
configuration as `with_sweep_range(0.3, 0.0)`, with
`min_angle = max_angle`. -/
theorem c7_sweep_range_normalization :
    (∀ (cfg : KnobConfig ℚ) (r : F), withSweepRange cfg F.nan r = cfg) ∧
    (∀ (cfg : KnobConfig ℚ) (s : F), withSweepRange cfg s F.nan = cfg) ∧
    (∀ (cfg : KnobConfig ℚ) (s r : ℚ),
      withSweepRange cfg (F.fin s) (F.fin r) =
        withSweepRange cfg (F.fin (Int.fract s)) (F.fin (max r 0))) ∧
    (withSweepRange KnobConfig.new (F.fin (13/10)) (F.fin (-(1/5))) =
        withSweepRange KnobConfig.new (F.fin (3/10)) (F.fin 0) ∧
      (withSweepRange KnobConfig.new (F.fin (13/10))
          (F.fin (-(1/5)))).min_angle =
        (withSweepRange KnobConfig.new (F.fin (13/10))
          (F.fin (-(1/5)))).max_angle) := by
  refine ⟨fun cfg r => by simp [withSweepRange],
    fun cfg s => by simp [withSweepRange],
    fun cfg s r => ?_, by
      norm_num [withSweepRange, F.remEuclidOne, F.maxQ, F.add, F.mul,
        F.isNan, KnobConfig.new, Int.fract]⟩
  simp [withSweepRange, F.remEuclidOne, F.maxQ, Int.fract_fract, max_assoc]

/-- Drag with an explicit nonzero step lands on `clamp(k·s, 0, 1)` for the
integer `k` produced by `round`. -/
theorem dragRaw_snap (cfg : KnobConfig ℚ) (delta q s : ℚ)
    (hst : cfg.step = some s) (hs0 : s ≠ 0) :
    ∃ k : ℤ, dragRaw cfg delta (F.fin q) =
      F.fin (max 0 (min ((k : ℚ) * s) 1)) := by
  refine ⟨if 0 ≤ max 0 (min (q - delta * s) 1) / s then
      ⌊max 0 (min (q - delta * s) 1) / s + 1/2⌋
    else ⌈max 0 (min (q - delta * s) 1) / s - 1/2⌉, ?_⟩
  simp [dragRaw, hst, F.roundF, F.div_fin_fin _ _ hs0]

/-- C9 counterexample: step `s = 0.1` configured, scrolling enabled, value
`0.35`, one wheel notch.  The scroll branch adds `1 · s` to the current raw
without snapping, giving `raw = 0.45 = 4.5 · s`: strictly inside `(0,1)`
(no boundary clamping intervened) yet not an integer multiple of `s`. -/
theorem c9_counterexample :
    (uiLin 0 1 { KnobConfig.new with allow_scroll := true, step := some (1/10) }
      ⟨false, 0, true, some 1, false⟩ (F.fin (7/20))).raw = F.fin (9/20) ∧
    (9/20 : ℚ) ≠ 0 ∧ (9/20 : ℚ) ≠ 1 ∧
    ∀ k : ℤ, (9/20 : ℚ) ≠ (k : ℚ) * (1/10) := by
  refine ⟨?_, by norm_num, by norm_num, ?_⟩
  · norm_num [uiLin, gestureRaw, scrollRaw, toRaw01, fromRaw01, F.remap,
      F.lerp, F.div, F.sub, F.add, F.mul, F.neg, F.clamp, F.isNan,
      KnobConfig.new]
  · intro k h
    have h2 : ((2 * k : ℤ) : ℚ) = 9 := by push_cast; linarith
    have h3 : (2 * k : ℤ) = 9 := by exact_mod_cast h2
    omega

/-- C9 amended: when an explicit nonzero step `s` is configured, the raw
coordinate resulting from a **drag** update is an integer multiple of `s`,
except where clamping at the boundaries `0` or `1` intervenes; the scroll
branch does not snap (see the counterexample). -/
theorem c9_drag_snaps (vmin vmax : ℚ) (cfg : KnobConfig ℚ)
    (inp : FrameInput ℚ) (v0 : F) (s : ℚ)
    (hd : inp.dragged = true) (hst : cfg.step = some s) (hs0 : s ≠ 0)
    (hmm : vmin ≠ vmax) (hv : v0 = F.nan ∨ ∃ q, v0 = F.fin q) :
    ∃ q, (uiLin vmin vmax cfg inp v0).raw = F.fin q ∧
      (q = 0 ∨ q = 1 ∨ ∃ k : ℤ, q = (k : ℚ) * s) := by
  obtain ⟨q1, hv1⟩ : ∃ q1, (if v0.isNan then F.fin vmin else v0) = F.fin q1 := by
    rcases hv with h | ⟨q, h⟩
    · exact ⟨vmin, by simp [h]⟩
    · exact ⟨q, by simp [h]⟩
  have hraw : (uiLin vmin vmax cfg inp v0).raw =
      dragRaw cfg inp.drag_delta_y
        (F.fin ((q1 - vmin) / (vmax - vmin))) := by
    simp [uiLin, gestureRaw, hd, hv1, toRaw01_fin _ _ _ hmm]
  obtain ⟨k, hk⟩ :=
    dragRaw_snap cfg inp.drag_delta_y ((q1 - vmin) / (vmax - vmin)) s hst hs0
  refine ⟨max 0 (min ((k : ℚ) * s) 1), by rw [hraw, hk], ?_⟩
  rcases le_or_lt ((k : ℚ) * s) 0 with h | h
  · left
    rw [min_eq_left (h.trans (by norm_num)), max_eq_left h]
  · rcases le_or_lt ((k : ℚ) * s) 1 with h1 | h1
    · right; right
      exact ⟨k, by rw [min_eq_left h1, max_eq_right h.le]⟩
    · right; left
      rw [min_eq_right h1.le, max_eq_right (by norm_num)]

/-- C9 witness: `min = 0`, `max = 1`, value `0.3`, step `0.25`, drag
`delta.y = -1`: the drag lands on an exact multiple of the step. -/
theorem c9_witness :
    ∃ q, (uiLin 0 1 { KnobConfig.new with step := some (1/4) }
        ⟨true, -1, false, none, false⟩ (F.fin (3/10))).raw = F.fin q ∧
      (q = 0 ∨ q = 1 ∨ ∃ k : ℤ, q = (k : ℚ) * (1/4)) :=
  c9_drag_snaps 0 1 { KnobConfig.new with step := some (1/4) }
    ⟨true, -1, false, none, false⟩ (F.fin (3/10)) (1/4) rfl rfl
    (by norm_num) (by norm_num) (Or.inr ⟨3/10, rfl⟩)

/-- The linear normalized-coordinate computation on a degenerate range
divides by zero and yields NaN, whatever the finite value. -/
theorem toRaw01_degenerate (vmin q : ℚ) :
    toRaw01 vmin vmin (F.fin q) = F.nan := by
  rcases lt_trichotomy q vmin with h | h | h
  · have h1 : q + -vmin ≠ 0 := by intro hc; apply absurd h; push_neg; linarith
    have h2 : ¬ vmin < q := by linarith
    simp [toRaw01, F.remap, F.lerp, F.div, F.sub, F.add, F.mul, F.neg,
      sub_self, h1, h2]
  · subst h
    simp [toRaw01, F.remap, F.lerp, F.div, F.sub, F.add, F.mul, F.neg,
      sub_self]
  · have h1 : q + -vmin ≠ 0 := by intro hc; apply absurd h; push_neg; linarith
    have h2 : vmin < q := h
    simp [toRaw01, F.remap, F.lerp, F.div, F.sub, F.add, F.mul, F.neg,
      sub_self, h1, h2]

/-- A NaN raw passes through every gesture path unchanged. -/
theorem gestureRaw_nan (cfg : KnobConfig ℚ) (inp : FrameInput ℚ) :
    (gestureRaw cfg inp F.nan).1 = F.nan := by
  rcases hd : inp.dragged
  · rcases hh : inp.hovered && cfg.allow_scroll
    · simp [gestureRaw, hd, hh]
    · rcases hsc : inp.scroll_y with _ | sy <;>
        simp [gestureRaw, scrollRaw, hd, hh, hsc]
  · rcases hst : cfg.step with _ | s <;>
      simp [gestureRaw, dragRaw, hd, hst]

/-- A NaN raw writes back a NaN value. -/
theorem fromRaw01_nan (vmin vmax : ℚ) : fromRaw01 vmin vmax F.nan = F.nan := by
  simp [fromRaw01, F.remap, F.lerp]

/-- C10 counterexample: on a degenerate range with a non-NaN starting value,
a double-click with a configured reset value writes that reset value, not
NaN — the claim's "the value written back is NaN" does not hold on frames
where a reset fires. -/
theorem c10_counterexample :
    (uiLin 1 1 { KnobConfig.new with reset_value := some 1 }
      ⟨false, 0, false, none, true⟩ (F.fin 1)).value = F.fin 1 ∧
    F.fin (1 : ℚ) ≠ F.nan := by
  constructor
  · simp [uiLin]
  · intro h
    exact F.noConfusion h

/-- C10 amended: for every degenerate range `min = max` in linear mode and a
non-NaN (finite) starting value, the normalized-coordinate computation
divides by zero (`self.max - self.min` is exactly `0`) and produces NaN, and
— provided no double-click reset fires — the value written back to the host
at the end of the frame is NaN; the division is guarded only on the angle
path, where `compute_angle` short-circuits a degenerate range to
`min_angle`. -/
theorem c10_degenerate_nan (vmin : ℚ) (cfg : KnobConfig ℚ)
    (inp : FrameInput ℚ) (q : ℚ)
    (hnr : inp.double_clicked = false ∨ cfg.reset_value = none) :
    F.sub (F.fin vmin) (F.fin vmin) = F.fin 0 ∧
    toRaw01 vmin vmin (F.fin q) = F.nan ∧
    (uiLin vmin vmin cfg inp (F.fin q)).value = F.nan ∧
    (uiLin vmin vmin cfg inp (F.fin q)).raw = F.nan ∧
    (∀ raw, computeAngle vmin vmin cfg raw = cfg.min_angle) := by
  have hraw : toRaw01 vmin vmin (F.fin q) = F.nan := toRaw01_degenerate vmin q
  have hg : (gestureRaw cfg inp (toRaw01 vmin vmin (F.fin q))).1 = F.nan := by
    rw [hraw]; exact gestureRaw_nan cfg inp
  refine ⟨by simp, hraw, ?_, ?_, fun raw => by simp [computeAngle]⟩
  · rcases hnr with h | h
    · simp [uiLin, hg, fromRaw01_nan, h]
    · by_cases hdc : inp.double_clicked = true <;>
        simp [uiLin, hg, fromRaw01_nan, h, hdc]
  · simp [uiLin, hg]

/-- C10 witness: `min = max = 2`, value `5`, a drag of `delta.y = 3`, no
double-click: the written-back value and the final raw are NaN, and the
angle path still reports `min_angle`. -/
theorem c10_witness :
    F.sub (F.fin 2) (F.fin 2) = F.fin 0 ∧
    toRaw01 2 2 (F.fin 5) = F.nan ∧
    (uiLin 2 2 KnobConfig.new ⟨true, 3, false, none, false⟩
      (F.fin 5)).value = F.nan ∧
    (uiLin 2 2 KnobConfig.new ⟨true, 3, false, none, false⟩
      (F.fin 5)).raw = F.nan ∧
    (∀ raw, computeAngle 2 2 KnobConfig.new raw = KnobConfig.new.min_angle) :=
  c10_degenerate_nan 2 KnobConfig.new ⟨true, 3, false, none, false⟩ 5
    (Or.inl rfl)

/-- The logarithmic normalized coordinate of an in-range value lies in
`[0,1]`. -/
theorem toRawLog_mem (vmin vmax v : ℝ) (hmm : vmin < vmax)
    (h1 : vmin ≤ v) (h2 : v ≤ vmax) :
    0 ≤ toRawLog vmin vmax v ∧ toRawLog vmin vmax v ≤ 1 := by
  have hd : (0 : ℝ) < vmax - vmin := by linarith
  have ht0 : 0 ≤ (v - vmin) / (vmax - vmin) := div_nonneg (by linarith) hd.le
  have ht1 : (v - vmin) / (vmax - vmin) ≤ 1 := by
    rw [div_le_one hd]; linarith
  have hu : remapR v vmin vmax 1 10 =
      1 + 9 * ((v - vmin) / (vmax - vmin)) := by
    unfold remapR lerpR; ring
  constructor
  · unfold toRawLog
    rw [hu]
    exact Real.logb_nonneg (by norm_num) (by linarith)
  · unfold toRawLog
    rw [hu, Real.logb_le_iff_le_rpow (by norm_num) (by linarith),
      Real.rpow_one]
    linarith

/-- The logarithmic write-back of a raw in `[0,1]` lies in `[min, max]`. -/
theorem fromRawLog_mem (vmin vmax r : ℝ) (hmm : vmin ≤ vmax)
    (h0 : 0 ≤ r) (h1 : r ≤ 1) :
    vmin ≤ fromRawLog vmin vmax r ∧ fromRawLog vmin vmax r ≤ vmax := by
  have hw1 : (1 : ℝ) ≤ (10 : ℝ) ^ r := by
    calc (1 : ℝ) = (10 : ℝ) ^ (0 : ℝ) := (Real.rpow_zero 10).symm
    _ ≤ (10 : ℝ) ^ r := Real.rpow_le_rpow_of_exponent_le (by norm_num) h0
  have hw2 : (10 : ℝ) ^ r ≤ 10 := by
    calc (10 : ℝ) ^ r ≤ (10 : ℝ) ^ (1 : ℝ) :=
      Real.rpow_le_rpow_of_exponent_le (by norm_num) h1
    _ = 10 := Real.rpow_one 10
  have hf : fromRawLog vmin vmax r =
      vmin + (((10 : ℝ) ^ r - 1) / 9) * (vmax - vmin) := by
    unfold fromRawLog remapR lerpR; ring
  have hc0 : 0 ≤ ((10 : ℝ) ^ r - 1) / 9 :=
    div_nonneg (by linarith) (by norm_num)
  have hc1 : ((10 : ℝ) ^ r - 1) / 9 ≤ 1 := by
    rw [div_le_one (by norm_num)]; linarith
  constructor
  · rw [hf]
    nlinarith [mul_nonneg hc0 (sub_nonneg.mpr hmm)]
  · rw [hf]
    nlinarith [mul_nonneg (sub_nonneg.mpr hc1) (sub_nonneg.mpr hmm)]

/-- C5: converting a value in `[min, max]` to the normalized coordinate and
back returns the value exactly (hence within any floating-point tolerance) —
in linear mode for `min < max`, and in logarithmic mode for `min > 0`. -/
theorem c5_round_trip :
    (∀ (vmin vmax q : ℚ), vmin < vmax → vmin ≤ q → q ≤ vmax →
      fromRaw01 vmin vmax (toRaw01 vmin vmax (F.fin q)) = F.fin q) ∧
    (∀ (vmin vmax v : ℝ), vmin < vmax → 0 < vmin → vmin ≤ v → v ≤ vmax →
      fromRawLog vmin vmax (toRawLog vmin vmax v) = v) := by
  constructor
  · intro vmin vmax q hmm h1 h2
    have hne : vmax - vmin ≠ 0 := sub_ne_zero.mpr (ne_of_gt hmm)
    rw [toRaw01_fin _ _ _ (ne_of_lt hmm), fromRaw01_fin]
    congr 1
    field_simp
    ring
  · intro vmin vmax v hmm hpos h1 h2
    have hd : (0 : ℝ) < vmax - vmin := by linarith
    have ht0 : 0 ≤ (v - vmin) / (vmax - vmin) :=
      div_nonneg (by linarith) hd.le
    have hu : remapR v vmin vmax 1 10 =
        1 + 9 * ((v - vmin) / (vmax - vmin)) := by
      unfold remapR lerpR; ring
    unfold fromRawLog toRawLog
    rw [Real.rpow_logb (by norm_num) (by norm_num) (by rw [hu]; linarith)]
    unfold remapR lerpR
    field_simp
    ring

/-- C5 witness: the linear round-trip at `min = 0`, `max = 2`, value `1`,
and the logarithmic round-trip at `min = 1`, `max = 10`, value `5`. -/
theorem c5_witness :
    fromRaw01 0 2 (toRaw01 0 2 (F.fin 1)) = F.fin 1 ∧
    fromRawLog 1 10 (toRawLog 1 10 5) = 5 :=
  ⟨c5_round_trip.1 0 2 1 (by norm_num) (by norm_num) (by norm_num),
   c5_round_trip.2 1 10 5 (by norm_num) (by norm_num) (by norm_num)
     (by norm_num)⟩

/-- C1 counterexample: `min = 0`, `max = 1`, starting value `0.5` (finite
and in range), double-click with configured reset value `5`: the value
written back is `5 ∉ [0, 1]` even though `min ≠ max` and the starting value
is not NaN — the reset path never clamps, so the claimed invariant is false
as stated. -/
theorem c1_counterexample :
    (uiLin 0 1 { KnobConfig.new with reset_value := some 5 }
      ⟨false, 0, false, none, true⟩ (F.fin (1/2))).value = F.fin 5 ∧
    ¬ ((5 : ℚ) ≤ 1) ∧ (0 : ℚ) ≠ (1 : ℚ) ∧
    (F.fin (1/2)).isNan = false := by
  refine ⟨by simp [uiLin], by norm_num, by norm_num, rfl⟩

/-- Every gesture path of the real-valued (logarithmic) model keeps a raw
starting in `[0,1]` inside `[0,1]`. -/
theorem gestureRawR_mem (cfg : KnobConfig ℝ) (inp : FrameInput ℝ) (t : ℝ)
    (ht0 : 0 ≤ t) (ht1 : t ≤ 1) :
    0 ≤ (gestureRawR cfg inp t).1 ∧ (gestureRawR cfg inp t).1 ≤ 1 := by
  have hcl : ∀ x : ℝ, 0 ≤ clampR x 0 1 ∧ clampR x 0 1 ≤ 1 := fun x =>
    ⟨le_max_left _ _, max_le (by norm_num) (min_le_right _ _)⟩
  rcases hd : inp.dragged
  · rcases hh : inp.hovered && cfg.allow_scroll
    · rw [show (gestureRawR cfg inp t).1 = t from by
        simp [gestureRawR, hd, hh]]
      exact ⟨ht0, ht1⟩
    · rcases hsc : inp.scroll_y with _ | sy
      · rw [show (gestureRawR cfg inp t).1 = t from by
          simp [gestureRawR, hd, hh, hsc]]
        exact ⟨ht0, ht1⟩
      · rw [show (gestureRawR cfg inp t).1 = scrollRawR cfg sy t from by
          simp [gestureRawR, hd, hh, hsc]]
        exact hcl _
  · rw [show (gestureRawR cfg inp t).1 = dragRawR cfg inp.drag_delta_y t from
      by simp [gestureRawR, hd]]
    rcases hst : cfg.step with _ | s
    · rw [show dragRawR cfg inp.drag_delta_y t =
        clampR (t - inp.drag_delta_y * cfg.drag_sensitivity) 0 1 from by
          simp [dragRawR, hst]]
      exact hcl _
    · rw [show dragRawR cfg inp.drag_delta_y t =
        clampR ((roundAwayR (clampR (t - inp.drag_delta_y * s) 0 1 / s) : ℝ)
          * s) 0 1 from by simp [dragRawR, hst]]
      exact hcl _

/-- C1 amended: a NaN starting value is coerced to `min` before any
computation (the whole frame behaves as if the value had been `min`); and
for a non-degenerate range `min < max`, a starting value that is NaN or a
finite value in `[min, max]`, a configured step that is nonzero (a zero step
makes the drag snap divide by zero and write back NaN), and a reset value in
`[min, max]` whenever a double-click fires, the written-back value lies in
`[min, max]` — in linear mode (exact model) and in logarithmic mode (real
model, NaN-free region). -/
theorem c1_value_in_range :
    (∀ (vmin vmax : ℚ) (cfg : KnobConfig ℚ) (inp : FrameInput ℚ),
      uiLin vmin vmax cfg inp F.nan = uiLin vmin vmax cfg inp (F.fin vmin)) ∧
    (∀ (vmin vmax : ℚ) (cfg : KnobConfig ℚ) (inp : FrameInput ℚ) (v0 : F),
      vmin < vmax →
      (v0 = F.nan ∨ ∃ q, v0 = F.fin q ∧ vmin ≤ q ∧ q ≤ vmax) →
      (∀ s, cfg.step = some s → s ≠ 0) →
      (∀ r, inp.double_clicked = true → cfg.reset_value = some r →
        vmin ≤ r ∧ r ≤ vmax) →
      ∃ q, (uiLin vmin vmax cfg inp v0).value = F.fin q ∧
        vmin ≤ q ∧ q ≤ vmax) ∧
    (∀ (vmin vmax : ℝ) (cfg : KnobConfig ℝ) (inp : FrameInput ℝ) (v0 : ℝ),
      vmin < vmax → vmin ≤ v0 → v0 ≤ vmax →
      (∀ s, cfg.step = some s → s ≠ 0) →
      (∀ r, inp.double_clicked = true → cfg.reset_value = some r →
        vmin ≤ r ∧ r ≤ vmax) →
      vmin ≤ (uiLogR vmin vmax cfg inp v0).value ∧
        (uiLogR vmin vmax cfg inp v0).value ≤ vmax) := by
  refine ⟨fun vmin vmax cfg inp => by simp [uiLin], ?_, ?_⟩
  · intro vmin vmax cfg inp v0 hmm hv hs hreset
    obtain ⟨q1, hv1, hq1a, hq1b⟩ :
        ∃ q1, (if v0.isNan then F.fin vmin else v0) = F.fin q1 ∧
          vmin ≤ q1 ∧ q1 ≤ vmax := by
      rcases hv with h | ⟨q, h, ha, hb⟩
      · exact ⟨vmin, by simp [h], le_refl vmin, le_of_lt hmm⟩
      · exact ⟨q, by simp [h], ha, hb⟩
    have hne : vmin ≠ vmax := ne_of_lt hmm
    have ht0 : 0 ≤ (q1 - vmin) / (vmax - vmin) :=
      div_nonneg (by linarith) (by linarith)
    have ht1 : (q1 - vmin) / (vmax - vmin) ≤ 1 := by
      rw [div_le_one (by linarith)]; linarith
    obtain ⟨r, hr, hr0, hr1⟩ := gestureRaw_mem cfg inp _ ht0 ht1 hs
    by_cases hdc : inp.double_clicked = true
    · rcases hrv : cfg.reset_value with _ | rv
      · obtain ⟨hwa, hwb⟩ := writeback_mem vmin vmax r (le_of_lt hmm) hr0 hr1
        refine ⟨(1 - r) * vmin + r * vmax, ?_, hwa, hwb⟩
        simp [uiLin, hv1, toRaw01_fin _ _ _ hne, hr, fromRaw01_fin, hdc, hrv]
      · obtain ⟨ha, hb⟩ := hreset rv hdc hrv
        exact ⟨rv, by simp [uiLin, hdc, hrv], ha, hb⟩
    · obtain ⟨hwa, hwb⟩ := writeback_mem vmin vmax r (le_of_lt hmm) hr0 hr1
      refine ⟨(1 - r) * vmin + r * vmax, ?_, hwa, hwb⟩
      simp [uiLin, hv1, toRaw01_fin _ _ _ hne, hr, fromRaw01_fin, hdc]
  · intro vmin vmax cfg inp v0 hmm h1 h2 hs hreset
    obtain ⟨hr0, hr1⟩ := toRawLog_mem vmin vmax v0 hmm h1 h2
    obtain ⟨hg0, hg1⟩ := gestureRawR_mem cfg inp _ hr0 hr1
    by_cases hdc : inp.double_clicked = true
    · rcases hrv : cfg.reset_value with _ | rv
      · rw [show (uiLogR vmin vmax cfg inp v0).value = fromRawLog vmin vmax
            (gestureRawR cfg inp (toRawLog vmin vmax v0)).1 from by
          simp [uiLogR, hdc, hrv]]
        exact fromRawLog_mem _ _ _ (le_of_lt hmm) hg0 hg1
      · rw [show (uiLogR vmin vmax cfg inp v0).value = rv from by
          simp [uiLogR, hdc, hrv]]
        exact hreset rv hdc hrv
    · rw [show (uiLogR vmin vmax cfg inp v0).value = fromRawLog vmin vmax
          (gestureRawR cfg inp (toRawLog vmin vmax v0)).1 from by
        simp [uiLogR, hdc]]
      exact fromRawLog_mem _ _ _ (le_of_lt hmm) hg0 hg1

/-- C1 witness: the linear part at `min = 0`, `max = 1`, value `1/2`, a drag
of `delta.y = 3`; the logarithmic part at `min = 1`, `max = 10`, value `5`,
the same drag. -/
theorem c1_witness :
    (∃ q, (uiLin 0 1 KnobConfig.new ⟨true, 3, false, none, false⟩
        (F.fin (1/2))).value = F.fin q ∧ 0 ≤ q ∧ q ≤ 1) ∧
    ((1 : ℝ) ≤ (uiLogR 1 10
        { step := none, drag_sensitivity := 1/200,
          show_background_arc := true, show_filled_segments := true,
          min_angle := F.fin (-1), max_angle := F.fin (1/2),
          reset_value := none, allow_scroll := false,
          logarithmic_scaling := true }
        ⟨true, 3, false, none, false⟩ 5).value ∧
      (uiLogR 1 10
        { step := none, drag_sensitivity := 1/200,
          show_background_arc := true, show_filled_segments := true,
          min_angle := F.fin (-1), max_angle := F.fin (1/2),
          reset_value := none, allow_scroll := false,
          logarithmic_scaling := true }
        ⟨true, 3, false, none, false⟩ 5).value ≤ 10) :=
  ⟨c1_value_in_range.2.1 0 1 KnobConfig.new ⟨true, 3, false, none, false⟩
      (F.fin (1/2)) (by norm_num)
      (Or.inr ⟨1/2, rfl, by norm_num, by norm_num⟩)
      (fun s h => by simp [KnobConfig.new] at h)
      (fun r h => by simp at h),
   c1_value_in_range.2.2 1 10 _ ⟨true, 3, false, none, false⟩ 5
      (by norm_num) (by norm_num) (by norm_num)
      (fun s h => by simp at h)
      (fun r h => by simp at h)⟩

/-- C6 counterexample: default configuration (`min_angle = -π`,
`max_angle = π/2`, both arcs shown), range `0..1`, `raw = 1/100 ∈ [0,1]`.
The fill polyline ends at sample `⌊128 · 0.01⌋ = 1`, i.e. at coefficient
`-1 + (3/2)/128 = -253/256` of `π`, while the indicator angle is
`-1 + (3/2)/100 = -197/200` of `π` — they differ, because the fill endpoint
is quantized to the 128-segment sampling grid. -/
theorem c6_counterexample :
    fillEndAngle KnobConfig.new (F.fin (1/100)) =
      some (F.fin (-253/256)) ∧
    computeAngle 0 1 KnobConfig.new (F.fin (1/100)) = F.fin (-197/200) ∧
    F.fin (-253/256 : ℚ) ≠ F.fin (-197/200) := by
  refine ⟨?_, ?_, by norm_num⟩
  · norm_num [fillEndAngle, filledSegments, arcPointAngle, F.toUsize,
      F.clamp, F.mul, F.add, F.sub, F.neg, KnobConfig.new]
  · norm_num [computeAngle, F.isNan, F.mul, F.add, F.sub, F.neg,
      KnobConfig.new]

/-- C6 amended: for every `raw ∈ [0,1]` (with a non-degenerate range and
both arcs enabled), the filled-arc polyline ends at the indicator angle
computed for the grid-quantized coordinate `⌊128·raw⌋ / 128` — which equals
the indicator angle for `raw` itself exactly when `128·raw` is an integer;
for other `raw` the two differ (see the counterexample). -/
theorem c6_fill_end_angle (vmin vmax : ℚ) (cfg : KnobConfig ℚ) (q : ℚ)
    (hq0 : 0 ≤ q) (hq1 : q ≤ 1) (hmm : ¬ vmin = vmax)
    (hbg : cfg.show_background_arc = true)
    (hfs : cfg.show_filled_segments = true)
    (hpos : 0 < ⌊(128 : ℚ) * q⌋) :
    fillEndAngle cfg (F.fin q) =
      some (computeAngle vmin vmax cfg
        (F.fin ((⌊(128 : ℚ) * q⌋ : ℚ) / 128))) := by
  have hclamp : max 0 (min q 1) = q := by
    rw [min_eq_left hq1, max_eq_right hq0]
  have h128 : (1 : ℚ) ≤ 128 * q := by
    exact_mod_cast Int.le_floor.mp hpos
  have hfseq : filledSegments (F.fin q) = (⌊(128 : ℚ) * q⌋).toNat := by
    unfold filledSegments
    rw [F.clamp_fin, hclamp, F.mul_fin_fin]
    simp only [F.toUsize]
    rw [if_neg (by linarith)]
  have hfspos : 0 < filledSegments (F.fin q) := by
    rw [hfseq]; omega
  have hcast : ((filledSegments (F.fin q) : ℕ) : ℚ) =
      ((⌊(128 : ℚ) * q⌋ : ℤ) : ℚ) := by
    rw [hfseq]
    exact_mod_cast congrArg (Int.cast : ℤ → ℚ)
      (Int.toNat_of_nonneg (le_of_lt hpos))
  rw [show fillEndAngle cfg (F.fin q) =
      some (arcPointAngle cfg (filledSegments (F.fin q))) from by
    simp [fillEndAngle, hbg, hfs, hfspos]]
  unfold arcPointAngle computeAngle
  rw [if_neg (by simp [hmm])]
  rw [hcast, F.mul_comm_F]

/-- C6 witness: at the grid point `raw = 1/2` (where `128·raw = 64` is an
integer, so the quantized coordinate is `raw` itself) the fill endpoint is
exactly the indicator angle. -/
theorem c6_witness :
    fillEndAngle KnobConfig.new (F.fin (1/2)) =
      some (computeAngle 0 1 KnobConfig.new
        (F.fin ((⌊(128 : ℚ) * (1/2)⌋ : ℚ) / 128))) :=
  c6_fill_end_angle 0 1 KnobConfig.new (1/2) (by norm_num) (by norm_num)
    (by norm_num) rfl rfl (by norm_num)
